import Mathlib

/-!
Verification of the session/transport layer of the eSDK K8S storage plugin:
a shallow embedding of the base REST client (login failover across candidate
addresses, re-login, request construction, concurrency permits, the site
guard of the oceanstor client) with theorems about the claimed behaviour.

Go values decoded by json.Unmarshal into interface values are modelled by
`JVal`; the network and the external collaborators (secret store, HTTP
client construction, the array itself) are oracles passed in as arguments,
one outcome per call, so every run of the code is a value of the model.
-/

/-- Dynamic JSON value, the model of a Go interface value produced by
json.Unmarshal: null, bool, number (float64 in Go, kept as Int here since the
envelope codes are integral), string, array, object. -/
inductive JVal where
  | null : JVal
  | bool (b : Bool) : JVal
  | num (x : Int) : JVal
  | str (s : String) : JVal
  | arr (xs : List JVal) : JVal
  | obj (fields : List (String × JVal)) : JVal

/-- Reading a key of a decoded JSON object (Go map indexing; json.Unmarshal
keeps one value per key, so the first match is the value). -/
def JVal.lookupField : List (String × JVal) → String → Option JVal
  | [], _ => none
  | (k, v) :: rest, key => if k = key then some v else JVal.lookupField rest key

/-- Modelled from the spec: `utils.GetValue[string]` (repository code outside
src/) returns the value stored at the key when it is present and is a string,
and reports failure otherwise. -/
def getStringValue (fields : List (String × JVal)) (key : String) : Option String :=
  match JVal.lookupField fields key with
  | some (JVal.str s) => some s
  | _ => none

/-- Modelled from the spec: `base.Response` (outside src/), the uniform
ResponseEnvelope every call decodes into — `Error map[string]interface` and
`Data interface`, where a business code of 0 means success. -/
structure Response where
  error : List (String × JVal)
  data : JVal

/-- The Go zero value `Response` with a nil error map and nil data. -/
def Response.zero : Response := { error := [], data := JVal.null }

/-- Modelled from the spec: `base.Unconnected` (outside src/), the connectivity
sentinel error string meaning the endpoint could not be reached, as opposed to
reached but rejecting the request. -/
def Unconnected : String := "unconnected"

/-- Outcome of one BaseCall as its callers see it: a decoded envelope with nil
error, or a Go error carrying its message string (the Unconnected sentinel is
the message of a transport-level failure). -/
inductive CallOutcome where
  | ok (resp : Response) : CallOutcome
  | err (msg : String) : CallOutcome

/-- The simultaneous Go assignment from RestClient.loginCall that moves the
address at index `i` into the last slot — both right-hand sides read the
original list, so this is a swap of positions `i` and `length - 1`. -/
def swapWithLast (l : List String) (i : Nat) : List String :=
  (l.set i (l.getD (l.length - 1) "")).set (l.length - 1) (l.getD i "")

/-- Loop of RestClient.loginCall, one case per iteration over the slice of
remaining addresses: `i` is the position in the original Urls list, `e0` the
error value left by the previous iteration. A nil-error attempt swaps the
address into the last slot and stops; an error other than the Unconnected
sentinel stops; Unconnected goes on to the next address. The middle component
of the result instruments which addresses received a login attempt, in order. -/
def loginCallAux (attempt : Nat → CallOutcome) (urls : List String) :
    List String → Nat → Option String → List String × List String × Except String Response
  | [], _, none => (urls, [], Except.ok Response.zero)
  | [], _, some e => (urls, [], Except.error e)
  | u :: rest, i, _ =>
    match attempt i with
    | CallOutcome.ok resp => (swapWithLast urls i, [u], Except.ok resp)
    | CallOutcome.err msg =>
      if msg = Unconnected then
        let r := loginCallAux attempt urls rest (i + 1) (some msg)
        (r.1, u :: r.2.1, r.2.2)
      else (urls, [u], Except.error msg)

/-- RestClient.loginCall: try the candidate addresses of Urls in order, the
outcome of the attempt on address `i` given by the oracle `attempt i`. -/
def loginCall (attempt : Nat → CallOutcome) (urls : List String) :
    List String × List String × Except String Response :=
  loginCallAux attempt urls urls 0 none

theorem loginCallAux_stop_ok (attempt : Nat → CallOutcome) (urls : List String) :
    ∀ (rest : List String) (i d : Nat) (e0 : Option String) (resp : Response),
      d < rest.length →
      (∀ j, j < d → attempt (i + j) = CallOutcome.err Unconnected) →
      attempt (i + d) = CallOutcome.ok resp →
      loginCallAux attempt urls rest i e0 =
        (swapWithLast urls (i + d), rest.take (d + 1), Except.ok resp) := by
  intro rest
  induction rest with
  | nil => intro i d e0 resp hd; exact absurd hd (by simp)
  | cons u rest2 ih =>
    intro i d e0 resp hd hpre hok
    cases d with
    | zero =>
      have h0 : attempt i = CallOutcome.ok resp := by simpa using hok
      simp [loginCallAux, h0]
    | succ d2 =>
      have h0 : attempt i = CallOutcome.err Unconnected := by
        have := hpre 0 (Nat.succ_pos d2)
        simpa using this
      have harith : i + 1 + d2 = i + (d2 + 1) := by omega
      have hpre2 : ∀ j, j < d2 → attempt (i + 1 + j) = CallOutcome.err Unconnected := by
        intro j hj
        have := hpre (j + 1) (by omega)
        have hx : i + (j + 1) = i + 1 + j := by omega
        rwa [hx] at this
      have hok2 : attempt (i + 1 + d2) = CallOutcome.ok resp := by rw [harith]; exact hok
      have hd2 : d2 < rest2.length := by simpa using Nat.lt_of_succ_lt_succ hd
      have hrec := ih (i + 1) d2 (some Unconnected) resp hd2 hpre2 hok2
      simp [loginCallAux, h0, hrec, harith]

theorem loginCallAux_stop_err (attempt : Nat → CallOutcome) (urls : List String) :
    ∀ (rest : List String) (i d : Nat) (e0 : Option String) (msg : String),
      d < rest.length →
      (∀ j, j < d → attempt (i + j) = CallOutcome.err Unconnected) →
      attempt (i + d) = CallOutcome.err msg →
      msg ≠ Unconnected →
      loginCallAux attempt urls rest i e0 =
        (urls, rest.take (d + 1), Except.error msg) := by
  intro rest
  induction rest with
  | nil => intro i d e0 msg hd; exact absurd hd (by simp)
  | cons u rest2 ih =>
    intro i d e0 msg hd hpre herr hne
    cases d with
    | zero =>
      have h0 : attempt i = CallOutcome.err msg := by simpa using herr
      simp [loginCallAux, h0, hne]
    | succ d2 =>
      have h0 : attempt i = CallOutcome.err Unconnected := by
        have := hpre 0 (Nat.succ_pos d2)
        simpa using this
      have harith : i + 1 + d2 = i + (d2 + 1) := by omega
      have hpre2 : ∀ j, j < d2 → attempt (i + 1 + j) = CallOutcome.err Unconnected := by
        intro j hj
        have := hpre (j + 1) (by omega)
        have hx : i + (j + 1) = i + 1 + j := by omega
        rwa [hx] at this
      have herr2 : attempt (i + 1 + d2) = CallOutcome.err msg := by rw [harith]; exact herr
      have hd2 : d2 < rest2.length := by simpa using Nat.lt_of_succ_lt_succ hd
      have hrec := ih (i + 1) d2 (some Unconnected) msg hd2 hpre2 herr2 hne
      simp [loginCallAux, h0, hrec]

theorem loginCallAux_urls_unchanged_without_ok (attempt : Nat → CallOutcome)
    (urls : List String) :
    ∀ (rest : List String) (i : Nat) (e0 : Option String),
      (∀ j, j < rest.length → ∀ resp, attempt (i + j) ≠ CallOutcome.ok resp) →
      (loginCallAux attempt urls rest i e0).1 = urls := by
  intro rest
  induction rest with
  | nil => intro i e0 _; cases e0 <;> simp [loginCallAux]
  | cons u rest2 ih =>
    intro i e0 hno
    cases hcase : attempt i with
    | ok resp =>
      exact absurd (by simpa using hcase) (hno 0 (by simp) resp)
    | err msg =>
      by_cases hmsg : msg = Unconnected
      · subst hmsg
        have hno2 : ∀ j, j < rest2.length → ∀ resp,
            attempt (i + 1 + j) ≠ CallOutcome.ok resp := by
          intro j hj resp
          have hx : i + 1 + j = i + (j + 1) := by omega
          rw [hx]
          exact hno (j + 1) (by simpa using Nat.succ_lt_succ hj) resp
        have hrec := ih (i + 1) (some Unconnected) hno2
        simp [loginCallAux, hcase, hrec]
      · simp [loginCallAux, hcase, hmsg]

/-- Session state of RestClient: the mutable fields the claims are about. The
HTTP client itself is abstracted into the oracles. -/
structure ClientState where
  urls : List String
  url : String
  deviceId : String
  token : String
  vstoreName : String
  vstoreId : String
deriving DecidableEq

/-- Modelled from the spec: `utils.Semaphore` (outside src/), a counting permit
with a fixed capacity and an in-flight count. -/
structure Semaphore where
  capacity : Nat
  inFlight : Nat
deriving DecidableEq

/-- Modelled from the spec: `utils.NewSemaphore` creates a permit of the given
capacity with nothing in flight. -/
def NewSemaphore (n : Nat) : Semaphore := { capacity := n, inFlight := 0 }

/-- Modelled from the spec: `MaxStorageThreads` (outside src/), the fixed
capacity of every device-level permit. -/
def MaxStorageThreads : Nat := 100

/-- Modelled from the spec: `base.DefaultVStore` (outside src/), the logical
partition name substituted when the login payload lacks one. -/
def DefaultVStore : String := "System_vStore"

/-- Modelled from the spec: `base.DefaultVStoreID` (outside src/), the logical
partition id substituted when the login payload lacks one. -/
def DefaultVStoreID : String := "0"

/-- The process-wide `base.RequestSemaphoreMap`, device serial number to
device-level permit (a Go map holding pointers; the pointed-to permit state is
stored directly here). -/
def Registry : Type := String → Option Semaphore

/-- Insertion into the registry map. -/
def Registry.insert (reg : Registry) (k : String) (v : Semaphore) : Registry :=
  fun k2 => if k2 = k then some v else reg k2

/-- The registry before any device permit was created. -/
def emptyRegistry : Registry := fun _ => none

/-- RestClient.setDataFromRespData: decode device identity, token and logical
partition name/id from the login payload, and create the device-keyed permit
only when the registry holds none for that serial number. On decode failures
the Go assignments still write the zero value before the early return. -/
def setDataFromRespData (st : ClientState) (reg : Registry) (resp : Response) :
    ClientState × Registry × Except String Unit :=
  match resp.data with
  | JVal.obj respData =>
    match getStringValue respData "deviceid" with
    | none =>
      ({ st with deviceId := "" }, reg,
        Except.error "convert respData deviceid to string failed")
    | some did =>
      let st1 := { st with deviceId := did }
      let reg1 :=
        if (reg did).isSome then reg
        else Registry.insert reg did (NewSemaphore MaxStorageThreads)
      match getStringValue respData "iBaseToken" with
      | none =>
        ({ st1 with token := "" }, reg1,
          Except.error "convert respData iBaseToken to string failed")
      | some tok =>
        let st2 := { st1 with token := tok }
        let st3 := { st2 with vstoreName := (getStringValue respData "vstoreName").getD DefaultVStore }
        let st4 := { st3 with vstoreId := (getStringValue respData "vstoreId").getD DefaultVStoreID }
        (st4, reg1, Except.ok ())
  | _ => (st, reg, Except.error "convert resp.Data to map failed")

/-- Modelled from the spec: the business code `utils.FormatRespErr` (outside
src/) reads from the error map; Login discards the accompanying error value and
keeps the code, which is its zero value 0 when the map holds no numeric code. -/
def formatRespErrCode (error : List (String × JVal)) : Int :=
  match JVal.lookupField error "code" with
  | some (JVal.num c) => c
  | _ => 0

/-- External collaborators of RestClient.Login as oracles: whether the HTTP
client construction succeeds, the secret-store request parameters, and the
outcome of the login attempt on each address index. -/
structure LoginEnv where
  newClientOk : Bool
  requestParams : Except String JVal
  attempt : Nat → CallOutcome

/-- RestClient.Login: build the HTTP client, fetch credentials, clear the
partial session identity, run loginCall over the address list, reject a
non-zero business code, then decode the session data. The backend-offline
notification touches no session state and is not modelled. -/
def Login (env : LoginEnv) (st : ClientState) (reg : Registry) :
    ClientState × Registry × Except String Unit :=
  if ¬ env.newClientOk then
    (st, reg, Except.error "new http client by backend failed")
  else
    match env.requestParams with
    | Except.error e => (st, reg, Except.error ("get request failed while login, error : " ++ e))
    | Except.ok _ =>
      let st1 := { st with deviceId := "", token := "" }
      let lc := loginCall env.attempt st1.urls
      let st2 := { st1 with
        urls := lc.1,
        url := match lc.2.1.getLast? with
               | some u => u ++ "/deviceManager/rest"
               | none => st1.url }
      match lc.2.2 with
      | Except.error e =>
        (st2, reg, Except.error ("request storage failed while login, error : " ++ e))
      | Except.ok resp =>
        if formatRespErrCode resp.error ≠ 0 then
          (st2, reg, Except.error ("login " ++ st2.url ++ " error"))
        else
          match setDataFromRespData st2 reg resp with
          | (st3, reg1, Except.error e) => (st3, reg1, Except.error e)
          | (st3, reg1, Except.ok _) => (st3, reg1, Except.ok ())

theorem setDataFromRespData_fst_urls (st : ClientState) (reg : Registry) (resp : Response) :
    (setDataFromRespData st reg resp).1.urls = st.urls := by
  unfold setDataFromRespData
  repeat' split
  all_goals rfl

theorem Login_fst_urls (env : LoginEnv) (st : ClientState) (reg : Registry) (d : JVal)
    (hclient : env.newClientOk = true)
    (hparams : env.requestParams = Except.ok d) :
    (Login env st reg).1.urls = (loginCall env.attempt st.urls).1 := by
  unfold Login
  rw [hclient, hparams]
  simp only [not_true, if_false]
  cases hres : (loginCall env.attempt st.urls).2.2 with
  | error e => simp [hres]
  | ok resp =>
    by_cases hcode : formatRespErrCode resp.error = 0
    · simp only [hres, hcode, ne_eq, not_true_eq_false, if_false]
      have hsd := setDataFromRespData_fst_urls
        { st with
          deviceId := "", token := "",
          urls := (loginCall env.attempt st.urls).1,
          url := match (loginCall env.attempt st.urls).2.1.getLast? with
                 | some u => u ++ "/deviceManager/rest"
                 | none => st.url } reg resp
      split
      · simp_all
      · simp_all
    · simp [hres, hcode]

theorem length_swapWithLast (l : List String) (i : Nat) :
    (swapWithLast l i).length = l.length := by
  simp [swapWithLast]

theorem swapWithLast_getD (l : List String) (i k : Nat)
    (hi : i < l.length) (hk : k < l.length) :
    (swapWithLast l i).getD k "" =
      if k = l.length - 1 then l.getD i ""
      else if k = i then l.getD (l.length - 1) ""
      else l.getD k "" := by
  have hlast : l.length - 1 < l.length := by omega
  unfold swapWithLast
  by_cases h1 : k = l.length - 1
  · subst h1
    simp [List.getD_eq_getElem?_getD, List.getElem?_set, hk, List.length_set,
      List.getElem?_eq_getElem hi]
  · by_cases h2 : k = i
    · subst h2
      have hne : l.length - 1 ≠ k := fun h => h1 h.symm
      simp [List.getD_eq_getElem?_getD, List.getElem?_set, hne, h1, hi, hk,
        List.getElem?_eq_getElem hlast]
    · have hne1 : l.length - 1 ≠ k := fun h => h1 h.symm
      have hne2 : i ≠ k := fun h => h2 h.symm
      simp [List.getD_eq_getElem?_getD, List.getElem?_set, hne1, hne2, h1, h2]

/-- C1: loginCall tries the candidate addresses of the EndpointSet strictly in
order from the front; every address of a Unconnected-failing front segment is
followed by an attempt on the next address, and the first address whose attempt
yields any other outcome (a decoded response, or a non-connectivity error)
stops the iteration at once, so the attempted addresses are exactly the
original list up to and including that address and none after it. -/
theorem loginCall_attempts_stop_at_first_decisive (attempt : Nat → CallOutcome)
    (urls : List String) (i : Nat)
    (hi : i < urls.length)
    (hpre : ∀ j, j < i → attempt j = CallOutcome.err Unconnected)
    (hdec : attempt i ≠ CallOutcome.err Unconnected) :
    (loginCall attempt urls).2.1 = urls.take (i + 1) := by
  unfold loginCall
  cases hcase : attempt i with
  | ok resp =>
    have h := loginCallAux_stop_ok attempt urls urls 0 i none resp hi
      (by intro j hj; simpa using hpre j hj) (by simpa using hcase)
    simp [h]
  | err msg =>
    have hne : msg ≠ Unconnected := by
      intro hmsg
      subst hmsg
      exact hdec hcase
    have h := loginCallAux_stop_err attempt urls urls 0 i none msg hi
      (by intro j hj; simpa using hpre j hj) (by simpa using hcase) hne
    simp [h]

/-- Failover run with the first two addresses unreachable and the third
answering. -/
def attemptTwoDownThenUp : Nat → CallOutcome
  | 0 => CallOutcome.err Unconnected
  | 1 => CallOutcome.err Unconnected
  | _ => CallOutcome.ok Response.zero

/-- C1 witness: on addresses A, B, C with A and B unconnected and C answering,
exactly A, B, C are attempted, in order. -/
theorem loginCall_attempts_stop_at_first_decisive_witness :
    (loginCall attemptTwoDownThenUp ["A", "B", "C"]).2.1 =
      List.take (2 + 1) ["A", "B", "C"] :=
  loginCall_attempts_stop_at_first_decisive attemptTwoDownThenUp ["A", "B", "C"] 2
    (by simp)
    (by intro j hj; interval_cases j <;> rfl)
    (by intro h; exact CallOutcome.noConfusion h)

/-- Login exchange that succeeds immediately, on the first address tried. -/
def attemptFirstUp : Nat → CallOutcome := fun _ => CallOutcome.ok Response.zero

/-- C2 counterexample: when the login succeeds at index 0 of u1, u2, u3, the
code swaps u1 with the final slot and yields u3, u2, u1 — not the
order-preserving u2, u3, u1 that the claim predicts (u1 moved to the final
slot with the relative order of u2 and u3 preserved). -/
theorem loginCall_success_at_front_is_swap_not_rotation :
    (loginCall attemptFirstUp ["u1", "u2", "u3"]).1 = ["u3", "u2", "u1"]
    ∧ (loginCall attemptFirstUp ["u1", "u2", "u3"]).1 ≠ ["u2", "u3", "u1"] := by
  constructor
  · rfl
  · decide

/-- C2 (amended): when the first decisive attempt, at index i, returns a decoded
response (in particular at every successful Login), Login swaps the address at
index i with the address in the final slot: the succeeded address ends up last,
the address formerly in the final slot takes index i, and every other address
keeps its position. The relative order of the other addresses is preserved only
when i is the final or the second-to-last index — as in the cited example
u1, u2, u3 with u2 succeeding, which yields u1, u3, u2. -/
theorem login_success_swaps_succeeded_address_with_last (env : LoginEnv)
    (st : ClientState) (reg : Registry) (d : JVal) (i : Nat) (resp : Response)
    (hclient : env.newClientOk = true)
    (hparams : env.requestParams = Except.ok d)
    (hi : i < st.urls.length)
    (hpre : ∀ j, j < i → env.attempt j = CallOutcome.err Unconnected)
    (hok : env.attempt i = CallOutcome.ok resp) :
    (Login env st reg).1.urls = swapWithLast st.urls i
    ∧ ∀ k, k < st.urls.length →
        (Login env st reg).1.urls.getD k "" =
          if k = st.urls.length - 1 then st.urls.getD i ""
          else if k = i then st.urls.getD (st.urls.length - 1) ""
          else st.urls.getD k "" := by
  have hcall : (loginCall env.attempt st.urls).1 = swapWithLast st.urls i := by
    unfold loginCall
    have h := loginCallAux_stop_ok env.attempt st.urls st.urls 0 i none resp hi
      (by intro j hj; simpa using hpre j hj) (by simpa using hok)
    simp [h]
  have hurls : (Login env st reg).1.urls = swapWithLast st.urls i := by
    rw [Login_fst_urls env st reg d hclient hparams, hcall]
  refine ⟨hurls, ?_⟩
  intro k hk
  rw [hurls]
  exact swapWithLast_getD st.urls i k hi hk

/-- Failover run in which the first address is unreachable and the second
answers. -/
def attemptSecondUp : Nat → CallOutcome
  | 0 => CallOutcome.err Unconnected
  | _ => CallOutcome.ok Response.zero

/-- Login environment for the u2-succeeds example. -/
def envSecondUp : LoginEnv :=
  { newClientOk := true, requestParams := Except.ok JVal.null, attempt := attemptSecondUp }

/-- Session state holding the three example addresses. -/
def stThreeUrls : ClientState :=
  { urls := ["u1", "u2", "u3"], url := "", deviceId := "", token := "",
    vstoreName := "", vstoreId := "" }

/-- C2 witness: on u1, u2, u3 with u2 succeeding, Login leaves the list in the
order u1, u3, u2 — here the swap coincides with the order-preserving move. -/
theorem login_success_swaps_succeeded_address_with_last_witness :
    (Login envSecondUp stThreeUrls emptyRegistry).1.urls = swapWithLast ["u1", "u2", "u3"] 1
    ∧ swapWithLast ["u1", "u2", "u3"] 1 = ["u1", "u3", "u2"] :=
  ⟨(login_success_swaps_succeeded_address_with_last envSecondUp stThreeUrls emptyRegistry
      JVal.null 1 Response.zero rfl rfl (by simp [stThreeUrls])
      (by intro j hj; interval_cases j <;> rfl) rfl).1,
    by decide⟩

/-- Login response of a reached endpoint that rejects the credentials with a
non-zero business code. -/
def respAuthRejected : Response :=
  { error := [("code", JVal.num 12345), ("description", JVal.str "invalid credentials")],
    data := JVal.null }

/-- Environment in which the very first address is reachable and rejects the
login with a non-zero business code. -/
def envAuthRejected : LoginEnv :=
  { newClientOk := true, requestParams := Except.ok JVal.null,
    attempt := fun _ => CallOutcome.ok respAuthRejected }

/-- Session state holding the two example addresses A and B. -/
def stTwoUrls : ClientState :=
  { urls := ["A", "B"], url := "", deviceId := "", token := "",
    vstoreName := "", vstoreId := "" }

/-- C3 counterexample: a Login that fails because the reached endpoint returned
a non-zero business code still mutates the Urls list — address A, reachable but
rejecting with code 12345, is swapped to the last slot and the failed Login
leaves B, A instead of the original A, B. -/
theorem login_auth_rejection_still_mutates_urls :
    (Login envAuthRejected stTwoUrls emptyRegistry).2.2 ≠ Except.ok ()
    ∧ (Login envAuthRejected stTwoUrls emptyRegistry).1.urls = ["B", "A"]
    ∧ (["B", "A"] : List String) ≠ ["A", "B"] := by
  refine ⟨?_, rfl, by decide⟩
  intro h
  exact Except.noConfusion h

/-- C3 (amended): the Urls list is left exactly as it was by every Login in
which no attempted address had its exchange complete with a nil error — every
attempt failed with the Unconnected sentinel or another transport or decode
error, or Login failed before reaching loginCall. A Login whose exchange does
complete on some address swaps that address to the last slot even when the
endpoint rejects the credentials with a non-zero business code, so only
transport-level failures leave the order and contents untouched. -/
theorem login_without_completed_exchange_preserves_urls (env : LoginEnv)
    (st : ClientState) (reg : Registry)
    (hno : ∀ j, j < st.urls.length → ∀ resp, env.attempt j ≠ CallOutcome.ok resp) :
    (Login env st reg).1.urls = st.urls := by
  have hcall : (loginCall env.attempt st.urls).1 = st.urls := by
    unfold loginCall
    exact loginCallAux_urls_unchanged_without_ok env.attempt st.urls st.urls 0 none
      (by intro j hj resp; simpa using hno j hj resp)
  by_cases hclient : env.newClientOk = true
  · cases hparams : env.requestParams with
    | error e =>
      unfold Login
      rw [hclient, hparams]
      simp
    | ok d =>
      rw [Login_fst_urls env st reg d hclient hparams, hcall]
  · unfold Login
    have : ¬ env.newClientOk := by
      intro h; exact hclient (by simpa using h)
    rw [if_pos this]

/-- Environment in which every address is unreachable. -/
def envAllUnconnected : LoginEnv :=
  { newClientOk := true, requestParams := Except.ok JVal.null,
    attempt := fun _ => CallOutcome.err Unconnected }

/-- C3 witness: a Login in which both addresses fail with the connectivity
sentinel leaves the Urls list exactly as it was. -/
theorem login_without_completed_exchange_preserves_urls_witness :
    (Login envAllUnconnected stTwoUrls emptyRegistry).1.urls = stTwoUrls.urls :=
  login_without_completed_exchange_preserves_urls envAllUnconnected stTwoUrls emptyRegistry
    (by intro j hj resp h; exact CallOutcome.noConfusion h)

theorem Registry.insert_lookup (reg : Registry) (k : String) (v : Semaphore) (k2 : String) :
    Registry.insert reg k v k2 = if k2 = k then some v else reg k2 := rfl

theorem setDataFromRespData_keeps_existing_permit (st : ClientState) (reg : Registry)
    (resp : Response) (sn : String) (p : Semaphore) (h : reg sn = some p) :
    (setDataFromRespData st reg resp).2.1 sn = some p := by
  unfold setDataFromRespData
  repeat' split
  all_goals simp_all [Registry.insert]
  all_goals (intro he; subst he; simp_all)

theorem setDataFromRespData_creates_permit_when_absent (st : ClientState) (reg : Registry)
    (errMap : List (String × JVal)) (fields : List (String × JVal)) (did : String)
    (hdid : getStringValue fields "deviceid" = some did)
    (habs : reg did = none) :
    (setDataFromRespData st reg { error := errMap, data := JVal.obj fields }).2.1 did
      = some (NewSemaphore MaxStorageThreads) := by
  unfold setDataFromRespData
  simp only [hdid]
  have hsome : (reg did).isSome = false := by simp [habs]
  repeat' split
  all_goals simp_all [Registry.insert]

/-- Registry evolution across a sequence of login decodes, each step the
setDataFromRespData of one successful login exchange. -/
def processLogins (reg : Registry) (events : List (ClientState × Response)) : Registry :=
  events.foldl (fun r e => (setDataFromRespData e.1 r e.2).2.1) reg

theorem processLogins_keeps_existing_permit :
    ∀ (events : List (ClientState × Response)) (reg : Registry) (sn : String) (p : Semaphore),
      reg sn = some p → processLogins reg events sn = some p := by
  intro events
  induction events with
  | nil => intro reg sn p h; simpa [processLogins] using h
  | cons e rest ih =>
    intro reg sn p h
    have h1 := setDataFromRespData_keeps_existing_permit e.1 reg e.2 sn p h
    simpa [processLogins, List.foldl] using ih _ sn p h1

/-- C10: a successful login decode keeps any device-keyed permit already in the
process-wide registry exactly as it is — never replaced or resized, its
in-flight accounting included — and creates a permit, of the fixed capacity
MaxStorageThreads, only for a serial number with none; hence across any
sequence of login decodes an existing permit for a serial number survives
untouched, so at most one permit is ever created per serial number. -/
theorem device_permit_created_at_most_once :
    (∀ (st : ClientState) (reg : Registry) (resp : Response) (sn : String) (p : Semaphore),
      reg sn = some p → (setDataFromRespData st reg resp).2.1 sn = some p)
    ∧ (∀ (st : ClientState) (reg : Registry) (errMap fields : List (String × JVal))
        (did : String),
        getStringValue fields "deviceid" = some did → reg did = none →
        (setDataFromRespData st reg { error := errMap, data := JVal.obj fields }).2.1 did
          = some (NewSemaphore MaxStorageThreads))
    ∧ (∀ (events : List (ClientState × Response)) (reg : Registry) (sn : String)
        (p : Semaphore),
        reg sn = some p → processLogins reg events sn = some p) :=
  ⟨fun st reg resp sn p h => setDataFromRespData_keeps_existing_permit st reg resp sn p h,
    fun st reg errMap fields did hdid habs =>
      setDataFromRespData_creates_permit_when_absent st reg errMap fields did hdid habs,
    fun events reg sn p h => processLogins_keeps_existing_permit events reg sn p h⟩

/-- The network operations ReLogin can issue. -/
inductive NetOp where
  | logoutOp : NetOp
  | loginOp : NetOp
deriving DecidableEq

/-- RestClient.ReLogin after the relogin lock is acquired: `oldToken` is the
token captured on entry, `st` the session state observed under the lock (in a
concurrent run another relogin may have changed it between the two). A
non-empty token differing from the captured one means another caller already
relogged in: return success with no network call. Otherwise Logout first when a
token is present (best-effort, mutating nothing), then Login on the same state.
The last component lists the network operations issued, in order. -/
def ReLoginBody (env : LoginEnv) (oldToken : String) (st : ClientState) (reg : Registry) :
    (ClientState × Registry × Except String Unit) × List NetOp :=
  if st.token ≠ "" ∧ oldToken ≠ st.token then ((st, reg, Except.ok ()), [])
  else
    let pre := if st.token ≠ "" then [NetOp.logoutOp] else []
    (Login env st reg, pre ++ [NetOp.loginOp])

/-- C5: once the relogin lock is held, a non-empty token that differs from the
token captured on entry makes ReLogin return success immediately, issuing no
Logout and no Login and leaving all state untouched; otherwise, with a token
present, it issues Logout first and then Login on the very same session state
(same EndpointSet). -/
theorem relogin_token_change_short_circuits :
    ∀ (env : LoginEnv) (oldToken : String) (st : ClientState) (reg : Registry),
      (st.token ≠ "" → oldToken ≠ st.token →
        ReLoginBody env oldToken st reg = ((st, reg, Except.ok ()), []))
      ∧ (oldToken = st.token → st.token ≠ "" →
        ReLoginBody env oldToken st reg = (Login env st reg, [NetOp.logoutOp, NetOp.loginOp])) := by
  intro env oldToken st reg
  constructor
  · intro h1 h2
    simp [ReLoginBody, h1, h2]
  · intro h1 h2
    subst h1
    simp [ReLoginBody, h2]

/-- Outcome pair of one BaseCall as Go returns it: the decoded envelope and the
error value. -/
def CallPair : Type := Response × Option String

/-- Oracles for one run of Call or SafeCall: the outcome of the first BaseCall,
of ReLogin, of the system-info refresh, and of the retried BaseCall. -/
structure CallEnv where
  first : CallPair
  reloginRes : Except String Unit
  setSysRes : Except String Unit
  second : CallPair

/-- Steps of Call and SafeCall, instrumenting the trace of a run. -/
inductive CallEv where
  | baseCallEv : CallEv
  | reLoginEv : CallEv
  | setSystemInfoEv : CallEv
deriving DecidableEq

/-- RestClient.Call: BaseCall once; when NeedReLogin holds of the outcome,
ReLogin (returning its failure as is), then SetSystemInfo (returning its
failure wrapped), then exactly one more BaseCall. `needReLogin` is the
NeedReLogin predicate, abstract here, applied to the first outcome. -/
def Call (needReLogin : Response → Option String → Bool) (env : CallEnv) :
    CallPair × List CallEv :=
  if ¬ needReLogin env.first.1 env.first.2 then (env.first, [CallEv.baseCallEv])
  else
    match env.reloginRes with
    | Except.error m => ((Response.zero, some m), [CallEv.baseCallEv, CallEv.reLoginEv])
    | Except.ok _ =>
      match env.setSysRes with
      | Except.error m =>
        ((Response.zero, some ("after relogin, can not get system info, error: " ++ m)),
          [CallEv.baseCallEv, CallEv.reLoginEv, CallEv.setSystemInfoEv])
      | Except.ok _ =>
        (env.second,
          [CallEv.baseCallEv, CallEv.reLoginEv, CallEv.setSystemInfoEv, CallEv.baseCallEv])

/-- OceanstorClient.SafeCall: the same skeleton as Call, except that the
ReLogin and SetSystemInfo failure paths return the first response alongside the
error instead of a zero response. -/
def SafeCall (needReLogin : Response → Option String → Bool) (env : CallEnv) :
    CallPair × List CallEv :=
  if ¬ needReLogin env.first.1 env.first.2 then (env.first, [CallEv.baseCallEv])
  else
    match env.reloginRes with
    | Except.error m => ((env.first.1, some m), [CallEv.baseCallEv, CallEv.reLoginEv])
    | Except.ok _ =>
      match env.setSysRes with
      | Except.error m =>
        ((env.first.1, some m),
          [CallEv.baseCallEv, CallEv.reLoginEv, CallEv.setSystemInfoEv])
      | Except.ok _ =>
        (env.second,
          [CallEv.baseCallEv, CallEv.reLoginEv, CallEv.setSystemInfoEv, CallEv.baseCallEv])

/-- Occurrences of one step in a trace. -/
def countEv (e : CallEv) : List CallEv → Nat
  | [] => 0
  | x :: rest => (if x = e then 1 else 0) + countEv e rest

/-- C4: in every run of Call and of SafeCall, BaseCall is issued at most twice
and ReLogin at most once; the second BaseCall happens only when both the
ReLogin and the system-info refresh succeeded; a ReLogin failure is returned at
once with no retry, and a refresh failure is returned instead of retrying —
there is never a second retry cycle. -/
theorem call_relogin_retry_bounded :
    ∀ (needReLogin : Response → Option String → Bool) (env : CallEnv),
      (countEv CallEv.baseCallEv (Call needReLogin env).2 ≤ 2
        ∧ countEv CallEv.reLoginEv (Call needReLogin env).2 ≤ 1
        ∧ (countEv CallEv.baseCallEv (Call needReLogin env).2 = 2 →
            env.reloginRes = Except.ok () ∧ env.setSysRes = Except.ok ())
        ∧ (∀ m, needReLogin env.first.1 env.first.2 = true →
            env.reloginRes = Except.error m →
            Call needReLogin env =
              ((Response.zero, some m), [CallEv.baseCallEv, CallEv.reLoginEv]))
        ∧ (∀ m, needReLogin env.first.1 env.first.2 = true →
            env.reloginRes = Except.ok () → env.setSysRes = Except.error m →
            Call needReLogin env =
              ((Response.zero, some ("after relogin, can not get system info, error: " ++ m)),
                [CallEv.baseCallEv, CallEv.reLoginEv, CallEv.setSystemInfoEv])))
      ∧ (countEv CallEv.baseCallEv (SafeCall needReLogin env).2 ≤ 2
        ∧ countEv CallEv.reLoginEv (SafeCall needReLogin env).2 ≤ 1
        ∧ (countEv CallEv.baseCallEv (SafeCall needReLogin env).2 = 2 →
            env.reloginRes = Except.ok () ∧ env.setSysRes = Except.ok ())
        ∧ (∀ m, needReLogin env.first.1 env.first.2 = true →
            env.reloginRes = Except.error m →
            SafeCall needReLogin env =
              ((env.first.1, some m), [CallEv.baseCallEv, CallEv.reLoginEv]))
        ∧ (∀ m, needReLogin env.first.1 env.first.2 = true →
            env.reloginRes = Except.ok () → env.setSysRes = Except.error m →
            SafeCall needReLogin env =
              ((env.first.1, some m),
                [CallEv.baseCallEv, CallEv.reLoginEv, CallEv.setSystemInfoEv]))) := by
  intro needReLogin env
  have hcases : ∀ P : Prop,
      (needReLogin env.first.1 env.first.2 = false → P) →
      ((∀ m, needReLogin env.first.1 env.first.2 = true →
          env.reloginRes = Except.error m → P)) →
      ((∀ m, needReLogin env.first.1 env.first.2 = true →
          env.reloginRes = Except.ok () → env.setSysRes = Except.error m → P)) →
      ((needReLogin env.first.1 env.first.2 = true →
          env.reloginRes = Except.ok () → env.setSysRes = Except.ok () → P)) → P := by
    intro P hfalse herr hsys hok
    by_cases h : needReLogin env.first.1 env.first.2
    · cases hrel : env.reloginRes with
      | error m => exact herr m h hrel
      | ok u =>
        cases u
        cases hsy : env.setSysRes with
        | error m => exact hsys m h hrel hsy
        | ok v => cases v; exact hok h hrel hsy
    · exact hfalse (by simpa using h)
  refine hcases _ ?_ ?_ ?_ ?_
  · intro h
    refine ⟨⟨?_, ?_, ?_, ?_, ?_⟩, ?_, ?_, ?_, ?_, ?_⟩ <;>
      simp [Call, SafeCall, h, countEv]
  · intro m0 h hrel
    refine ⟨⟨?_, ?_, ?_, ?_, ?_⟩, ?_, ?_, ?_, ?_, ?_⟩ <;>
      simp [Call, SafeCall, h, hrel, countEv] <;>
      intro m hm <;> simp [hm] at hrel <;> simp [hrel]
  · intro m0 h hrel hsys
    refine ⟨⟨?_, ?_, ?_, ?_, ?_⟩, ?_, ?_, ?_, ?_, ?_⟩ <;>
      simp [Call, SafeCall, h, hrel, hsys, countEv] <;>
      intro m hm <;> simp [hm] at hsys <;> simp [hsys]
  · intro h hrel hsys
    refine ⟨⟨?_, ?_, ?_, ?_, ?_⟩, ?_, ?_, ?_, ?_, ?_⟩ <;>
      simp [Call, SafeCall, h, hrel, hsys, countEv]

/-- Outcome of the network phase of one exchange: Client.Do, the body read and
the envelope decode, each an oracle case. -/
inductive ExchangeOutcome where
  | transportErr (msg : String) : ExchangeOutcome
  | readErr (msg : String) : ExchangeOutcome
  | decodeErr (msg : String) : ExchangeOutcome
  | decoded (r : Response) : ExchangeOutcome

/-- The tail every exchange shares: a Client.Do failure maps to the Unconnected
sentinel, a read or decode failure to its own error, a decoded body to the
envelope with nil error. -/
def finishExchange : ExchangeOutcome → Response × Option String
  | ExchangeOutcome.transportErr _ => (Response.zero, some Unconnected)
  | ExchangeOutcome.readErr m => (Response.zero, some ("read response data error: " ++ m))
  | ExchangeOutcome.decodeErr m => (Response.zero, some ("json.Unmarshal data error: " ++ m))
  | ExchangeOutcome.decoded r => (r, none)

/-- Site-awareness state of the oceanstor client: the logical-interface
identity recorded at login, the currently active one, and whether the
system-info refresh flag is set. -/
structure SiteState where
  currentLifWwn : String
  currentSiteWwn : String
  refreshing : Bool
deriving DecidableEq

/-- OceanstorClient.safeDoCall: for a non-session url, when a logical-interface
identity has been recorded, a set refreshing flag fails fast and a mismatch
with the active site fails; otherwise the exchange runs. The Bool of the
result records whether Client.Do was issued. -/
def safeDoCall (ex : ExchangeOutcome) (site : SiteState) (url : String) :
    (Response × Option String) × Bool :=
  let isNotSessionUrl := url ≠ "/xx/sessions" ∧ url ≠ "/sessions"
  if isNotSessionUrl ∧ site.currentLifWwn ≠ "" then
    if site.refreshing then
      ((Response.zero, some "querying lif and system information... Please wait"), false)
    else if site.currentLifWwn ≠ site.currentSiteWwn then
      ((Response.zero, some "current logical port is not running on own site"), false)
    else (finishExchange ex, true)
  else (finishExchange ex, true)

/-- Site state with the refreshing flag set but no recorded logical-interface
identity, as on a client whose login never filled CurrentLifWwn. -/
def siteRefreshingNoLif : SiteState :=
  { currentLifWwn := "", currentSiteWwn := "wwn-b", refreshing := true }

/-- C6 counterexample: with the refreshing flag set but CurrentLifWwn empty, a
non-login/logout call is not failed fast — the network request is issued and
the call succeeds, against the claim that every such call fails immediately
regardless of any other session state. -/
theorem safeDoCall_refreshing_not_failfast_without_lif :
    (safeDoCall (ExchangeOutcome.decoded Response.zero) siteRefreshingNoLif "/storagepool").2
      = true
    ∧ (safeDoCall (ExchangeOutcome.decoded Response.zero) siteRefreshingNoLif "/storagepool").1.2
      = none := by
  constructor
  · rfl
  · rfl

/-- C6 (amended): while the refreshing flag is set, every non-login/logout call
on a client that has a recorded logical-interface identity (CurrentLifWwn
non-empty) fails immediately with the retriable site-refreshing error and
issues no network request; when no identity is recorded the check is bypassed
and the request proceeds. -/
theorem safeDoCall_refreshing_fails_fast (ex : ExchangeOutcome) (site : SiteState)
    (url : String)
    (h1 : url ≠ "/xx/sessions") (h2 : url ≠ "/sessions")
    (h3 : site.currentLifWwn ≠ "") (h4 : site.refreshing = true) :
    safeDoCall ex site url =
      ((Response.zero, some "querying lif and system information... Please wait"), false) := by
  simp [safeDoCall, h1, h2, h3, h4]

/-- C6 witness: a non-session call on a refreshing client with a recorded
logical-interface identity fails fast without a network request. -/
theorem safeDoCall_refreshing_fails_fast_witness :
    safeDoCall (ExchangeOutcome.decoded Response.zero)
        { currentLifWwn := "wwn-a", currentSiteWwn := "wwn-b", refreshing := true }
        "/storagepool"
      = ((Response.zero, some "querying lif and system information... Please wait"), false) :=
  safeDoCall_refreshing_fails_fast (ExchangeOutcome.decoded Response.zero)
    { currentLifWwn := "wwn-a", currentSiteWwn := "wwn-b", refreshing := true }
    "/storagepool" (by decide) (by decide) (by decide) rfl

/-- HTTP request as assembled by GetRequest: method, full url, headers in the
order they were set, optional JSON body. -/
structure HttpRequest where
  method : String
  requestUrl : String
  headers : List (String × String)
  body : Option JVal

/-- Go http.Header.Set: replace the value under the key when present, append
otherwise. -/
def setHeader (hs : List (String × String)) (k v : String) : List (String × String) :=
  if hs.any (fun p => p.1 = k) then hs.map (fun p => if p.1 = k then (k, v) else p)
  else hs ++ [(k, v)]

/-- First value stored under a header key. -/
def findHeader (hs : List (String × String)) (k : String) : Option String :=
  (hs.find? (fun p => p.1 = k)).map Prod.snd

/-- RestClient.GetRequest: the base url plus the device-id segment once known,
then the call path; Connection and Content-Type always set; the iBaseToken
header set exactly when the session token is non-empty. The marshalling of the
body always succeeds on the JVal values sent here, so the error paths of the Go
function are not reachable in the model. -/
def GetRequest (st : ClientState) (method url : String) (data : Option JVal) : HttpRequest :=
  let reqUrl := (if st.deviceId ≠ "" then st.url ++ "/" ++ st.deviceId else st.url) ++ url
  let headers1 := setHeader [] "Connection" "keep-alive"
  let headers2 := setHeader headers1 "Content-Type" "application/json"
  let headers3 := if st.token ≠ "" then setHeader headers2 "iBaseToken" st.token else headers2
  { method := method, requestUrl := reqUrl, headers := headers3, body := data }

/-- C7: every request built by GetRequest carries Content-Type
application/json and Connection keep-alive, and carries the iBaseToken header
exactly when the session token is non-empty — absent on the request built for
the first login call, present on every request built after a successful
login. -/
theorem getRequest_headers :
    ∀ (st : ClientState) (method url : String) (data : Option JVal),
      findHeader (GetRequest st method url data).headers "Content-Type"
          = some "application/json"
      ∧ findHeader (GetRequest st method url data).headers "Connection"
          = some "keep-alive"
      ∧ findHeader (GetRequest st method url data).headers "iBaseToken"
          = (if st.token = "" then none else some st.token) := by
  intro st method url data
  by_cases htok : st.token = ""
  · refine ⟨?_, ?_, ?_⟩ <;> simp [GetRequest, setHeader, findHeader, htok, List.find?]
  · refine ⟨?_, ?_, ?_⟩ <;> simp [GetRequest, setHeader, findHeader, htok, List.find?]

/-- Permit and exchange steps of one BaseCall, in execution order. -/
inductive PermitEv where
  | acquireClient : PermitEv
  | releaseClient : PermitEv
  | acquireMapPermit (key : String) : PermitEv
  | releaseMapPermit (key : String) : PermitEv
  | exchangeEv : PermitEv
deriving DecidableEq

/-- Modelled from the spec: `base.UninitializedStorage` (outside src/), the
registry key of the default bucket used before any device identity is known. -/
def UninitializedStorage : String := "UninitializedStorage"

/-- The permit schedule of RestClient.BaseCall once the request is built and
the client semaphore exists: acquire the client permit (its release deferred),
then the device-keyed permit when one is registered for the device serial
number and the default bucket otherwise (release deferred), run the exchange,
then the deferred releases in reverse registration order. -/
def BaseCallPermitSchedule (reg : Registry) (st : ClientState) : List PermitEv :=
  let acc := [PermitEv.acquireClient]
  let defers := [PermitEv.releaseClient]
  let step :=
    if (reg st.deviceId).isSome then
      (acc ++ [PermitEv.acquireMapPermit st.deviceId],
        PermitEv.releaseMapPermit st.deviceId :: defers)
    else
      (acc ++ [PermitEv.acquireMapPermit UninitializedStorage],
        PermitEv.releaseMapPermit UninitializedStorage :: defers)
  step.1 ++ [PermitEv.exchangeEv] ++ step.2

/-- The permit schedule of OceanstorClient.SafeBaseCall: the client permit is
taken when the client semaphore exists; the device-keyed permit is taken only
when one is registered — there is no default-bucket branch. -/
def SafeBaseCallPermitSchedule (hasClientSemaphore : Bool) (reg : Registry)
    (st : ClientState) : List PermitEv :=
  let s0 : List PermitEv × List PermitEv :=
    if hasClientSemaphore then ([PermitEv.acquireClient], [PermitEv.releaseClient])
    else ([], [])
  let s1 :=
    if (reg st.deviceId).isSome then
      (s0.1 ++ [PermitEv.acquireMapPermit st.deviceId],
        PermitEv.releaseMapPermit st.deviceId :: s0.2)
    else s0
  s1.1 ++ [PermitEv.exchangeEv] ++ s1.2

/-- C8 counterexample: a SafeBaseCall with no device-keyed permit registered
acquires no default-bucket permit at all — the exchange runs guarded only by
the client-level permit, against the claim that the default bucket is acquired
whenever the device serial number is unknown. -/
theorem safeBaseCall_skips_default_bucket :
    SafeBaseCallPermitSchedule true emptyRegistry stTwoUrls =
      [PermitEv.acquireClient, PermitEv.exchangeEv, PermitEv.releaseClient]
    ∧ PermitEv.acquireMapPermit UninitializedStorage ∉
        SafeBaseCallPermitSchedule true emptyRegistry stTwoUrls := by
  constructor
  · rfl
  · decide

/-- C8 (amended): RestClient.BaseCall acquires the client-level permit first
and then the device-keyed permit when one is registered, falling back to the
default bucket otherwise, and releases both after the exchange in reverse
order; OceanstorClient.SafeBaseCall does the same when a device-keyed permit is
registered, but acquires no device-level permit at all — and no default
bucket — when none is. -/
theorem baseCall_permit_schedule :
    ∀ (reg : Registry) (st : ClientState),
      ((reg st.deviceId).isSome = true →
        BaseCallPermitSchedule reg st =
          [PermitEv.acquireClient, PermitEv.acquireMapPermit st.deviceId,
            PermitEv.exchangeEv, PermitEv.releaseMapPermit st.deviceId,
            PermitEv.releaseClient])
      ∧ ((reg st.deviceId).isSome = false →
        BaseCallPermitSchedule reg st =
          [PermitEv.acquireClient, PermitEv.acquireMapPermit UninitializedStorage,
            PermitEv.exchangeEv, PermitEv.releaseMapPermit UninitializedStorage,
            PermitEv.releaseClient])
      ∧ ((reg st.deviceId).isSome = true →
        SafeBaseCallPermitSchedule true reg st =
          [PermitEv.acquireClient, PermitEv.acquireMapPermit st.deviceId,
            PermitEv.exchangeEv, PermitEv.releaseMapPermit st.deviceId,
            PermitEv.releaseClient])
      ∧ ((reg st.deviceId).isSome = false →
        SafeBaseCallPermitSchedule true reg st =
          [PermitEv.acquireClient, PermitEv.exchangeEv, PermitEv.releaseClient]) := by
  intro reg st
  refine ⟨?_, ?_, ?_, ?_⟩ <;>
    intro h <;>
    simp [BaseCallPermitSchedule, SafeBaseCallPermitSchedule, h]

/-- Result of RestClient.Logout for one outcome of its DELETE sessions call:
transport errors and non-zero business codes are logged only; the unchecked Go
type assertion on the code field — resp.Error of key code asserted to float64 —
is the panicked case, reached by any decoded envelope whose error map holds no
numeric code. -/
inductive LogoutOutcome where
  | logOnlyCallErr (msg : String) : LogoutOutcome
  | logOnlyBusinessErr (code : Int) : LogoutOutcome
  | loggedSuccess : LogoutOutcome
  | panicked : LogoutOutcome
deriving DecidableEq

/-- RestClient.Logout on the outcome of its BaseCall. -/
def Logout (outcome : CallOutcome) : LogoutOutcome :=
  match outcome with
  | CallOutcome.err msg => LogoutOutcome.logOnlyCallErr msg
  | CallOutcome.ok resp =>
    match JVal.lookupField resp.error "code" with
    | some (JVal.num c) =>
      if c ≠ 0 then LogoutOutcome.logOnlyBusinessErr c else LogoutOutcome.loggedSuccess
    | _ => LogoutOutcome.panicked

/-- C9: Logout handles a transport failure and a non-zero business code by
logging only, but the decodable response envelope whose error object carries no
numeric code drives the unchecked float64 type assertion into a run-time panic,
so Logout does raise on that outcome. -/
theorem logout_panics_on_codeless_envelope :
    Logout (CallOutcome.ok { error := [], data := JVal.null }) = LogoutOutcome.panicked
    ∧ Logout (CallOutcome.ok { error := [("code", JVal.str "0")], data := JVal.null })
        = LogoutOutcome.panicked
    ∧ Logout (CallOutcome.err "connection refused")
        = LogoutOutcome.logOnlyCallErr "connection refused"
    ∧ Logout (CallOutcome.ok { error := [("code", JVal.num 12345)], data := JVal.null })
        = LogoutOutcome.logOnlyBusinessErr 12345
    ∧ Logout (CallOutcome.ok { error := [("code", JVal.num 0)], data := JVal.null })
        = LogoutOutcome.loggedSuccess := by
  refine ⟨rfl, rfl, rfl, ?_, rfl⟩
  decide
